import Mathlib

/-!
# Shallow embedding of `growler/http/parser.py`

This file embeds the incremental HTTP/1.x request parser of the Growler
repository (class `Parser` in `growler/http/parser.py`) as executable Lean
definitions and proves or refutes the specification claims about it.

Conventions of the embedding:
* Python `bytes` values are `List Nat` (one entry per byte).
* Python `str` values are `List Nat` (one entry per Unicode code point).
* Python exceptions surface as an `Except PyErr` result; because the Python
  object is mutated up to the point of the raise, every stateful operation
  returns the mutated state alongside the `Except` value.
* CPython details relied on by the source are modelled as they behave in
  CPython: `line is b''` is equality (the empty-bytes object is a singleton),
  `prev_char is b'\r'[0]` is equality of byte values (small ints are cached),
  and `string[pos-1]` with `pos = 0` indexes the *last* element.
-/

/-- Python `bytes`: a list of byte values. -/
abbrev Bytes := List Nat

/-- Python `str`: a list of Unicode code points. -/
abbrev Str := List Nat

/-- `MAX_REQUEST_LENGTH = 1024 ** 2` (1 MiB) from `parser.py`. -/
def MAX_REQUEST_LENGTH : Nat := 1024 ^ 2

/-- `MAX_REQUEST_LINE_LENGTH = 8 * 1024` (8 KiB) from `parser.py`; declared in
the source but never referenced by any code path. -/
def MAX_REQUEST_LINE_LENGTH : Nat := 8 * 1024

/-- Helper for `bytesFind`: first index (counting from `i`) at which `sub`
is a prefix of the remaining list. -/
def findAux (sub : List Nat) : List Nat → Nat → Option Nat
  | [], _ => none
  | h :: t, i => if sub.isPrefixOf (h :: t) then some i else findAux sub t (i + 1)

/-- Python `haystack.find(sub)`, returning `none` for `-1`.
`b"".find(b"") == 0` in Python, hence the empty-pattern case. -/
def bytesFind (hay sub : List Nat) : Option Nat :=
  if sub.isEmpty then some 0 else findAux sub hay 0

/-- Helper for `pySplitOn`: accumulates the current segment (reversed) in
`acc`; a positive `skip` means that many already-matched separator elements
remain to be passed over. -/
def pySplitOnAux (sep : List Nat) : List Nat → Nat → List Nat → List (List Nat)
  | [], _, acc => [acc.reverse]
  | _ :: rest, Nat.succ k, acc => pySplitOnAux sep rest k acc
  | b :: rest, 0, acc =>
    if sep.isPrefixOf (b :: rest) then
      acc.reverse :: pySplitOnAux sep rest (sep.length - 1) []
    else
      pySplitOnAux sep rest 0 (b :: acc)

/-- Python `s.split(sep)` for a non-empty separator `sep`: non-overlapping
left-to-right splitting, keeping empty segments. -/
def pySplitOn (sep s : List Nat) : List (List Nat) :=
  pySplitOnAux sep s 0 []

/-- The Python `str` whitespace set (characters for which `str.isspace` holds),
as used by `str.split()` and `str.strip()`. -/
def isPySpace (c : Nat) : Bool :=
  c == 32 || (9 ≤ c && c ≤ 13) || (28 ≤ c && c ≤ 31) || c == 133 || c == 160 ||
  c == 5760 || (8192 ≤ c && c ≤ 8202) || c == 8232 || c == 8233 || c == 8239 ||
  c == 8287 || c == 12288

/-- Helper for `pySplitWs`: `acc` is the current token, reversed. -/
def wsSplitAux : List Nat → List Nat → List (List Nat)
  | [], acc => if acc.isEmpty then [] else [acc.reverse]
  | c :: rest, acc =>
    if isPySpace c then
      if acc.isEmpty then wsSplitAux rest [] else acc.reverse :: wsSplitAux rest []
    else
      wsSplitAux rest (c :: acc)

/-- Python `s.split()` (no argument): split on runs of whitespace, dropping
leading and trailing whitespace and producing no empty tokens. -/
def pySplitWs (s : Str) : List Str :=
  wsSplitAux s []

/-- Python `s.strip()` (no argument): remove leading and trailing whitespace. -/
def pyStrip (s : Str) : Str :=
  ((s.dropWhile isPySpace).reverse.dropWhile isPySpace).reverse

/-- Python `s.upper()`, modelled on the ASCII range (every string upper-cased
by the source in the claims under study is ASCII). -/
def pyUpper (s : Str) : Str :=
  s.map fun c => if 97 ≤ c ∧ c ≤ 122 then c - 32 else c

/-- Split at the first occurrence of character `c`, returning the parts
before and after it; `none` when `c` does not occur.  This is
`s.split(c, 1)` when it yields two parts, `none` when it would yield one. -/
def splitFirst (c : Nat) : Str → Option (Str × Str)
  | [] => none
  | a :: t =>
    if a = c then some ([], t)
    else (splitFirst c t).map fun p => (a :: p.1, p.2)

/-- Value of a hex digit character, `none` for a non-hex-digit. -/
def hexVal (c : Nat) : Option Nat :=
  if 48 ≤ c ∧ c ≤ 57 then some (c - 48)
  else if 65 ≤ c ∧ c ≤ 70 then some (c - 55)
  else if 97 ≤ c ∧ c ≤ 102 then some (c - 87)
  else none

/-- Helper for `utf8Decode`, structurally recursive on a fuel argument;
each decoding step consumes at least one byte and one unit of fuel, so fuel
equal to the byte count never runs out (the `0, _ :: _` arm is
unreachable). -/
def utf8DecodeAux : Nat → List Nat → Option (List Nat)
  | _, [] => some []
  | 0, _ :: _ => none
  | Nat.succ fuel, b :: rest =>
    if b ≤ 127 then (utf8DecodeAux fuel rest).map (b :: ·)
    else if 194 ≤ b ∧ b ≤ 223 then
      match rest with
      | c :: rest₂ =>
        if 128 ≤ c ∧ c ≤ 191 then
          (utf8DecodeAux fuel rest₂).map (((b - 192) * 64 + (c - 128)) :: ·)
        else none
      | [] => none
    else if 224 ≤ b ∧ b ≤ 239 then
      match rest with
      | c₁ :: c₂ :: rest₂ =>
        if ((if b = 224 then 160 else 128) ≤ c₁ ∧
              c₁ ≤ (if b = 237 then 159 else 191)) ∧
            (128 ≤ c₂ ∧ c₂ ≤ 191) then
          (utf8DecodeAux fuel rest₂).map
            (((b - 224) * 4096 + (c₁ - 128) * 64 + (c₂ - 128)) :: ·)
        else none
      | _ => none
    else if 240 ≤ b ∧ b ≤ 244 then
      match rest with
      | c₁ :: c₂ :: c₃ :: rest₂ =>
        if ((if b = 240 then 144 else 128) ≤ c₁ ∧
              c₁ ≤ (if b = 244 then 143 else 191)) ∧
            (128 ≤ c₂ ∧ c₂ ≤ 191) ∧ (128 ≤ c₃ ∧ c₃ ≤ 191) then
          (utf8DecodeAux fuel rest₂).map
            (((b - 240) * 262144 + (c₁ - 128) * 4096 + (c₂ - 128) * 64 +
              (c₃ - 128)) :: ·)
        else none
      | _ => none
    else none

/-- Strict UTF-8 decoding of a byte list into code points, as performed by
Python `bytes.decode('utf-8')`: rejects truncated sequences, stray
continuation bytes, overlong forms (`C0`/`C1`, and the `E0`/`F0` low
ranges), surrogates (`ED A0`–`ED BF`) and values above `U+10FFFF`
(`F4 90`+, `F5`+).  `none` models `UnicodeDecodeError`. -/
def utf8Decode (l : List Nat) : Option (List Nat) :=
  utf8DecodeAux l.length l

/-- Convert a Lean string literal to its list of code points; for the ASCII
literals used below this equals its list of bytes. -/
def B (s : String) : List Nat :=
  s.data.map Char.toNat

/-- The value of a header entry: a plain string, promoted to a list of
strings when continuation lines fold into it. -/
inductive HdrVal where
  | str (v : Str)
  | list (vs : List Str)
deriving DecidableEq, Repr

/-- The transient `_header_buffer` dict `{'key': ..., 'value': ...}`. -/
structure HeaderBuffer where
  key : Str
  value : HdrVal
deriving DecidableEq, Repr

/-- The errors a `consume` call can raise.  The first four are the classified
HTTP errors from `growler.http.errors`; `typeError` models the Python
`TypeError` raised by subscripting `None`, and `indexError` models
`list.pop` on an empty list (unreachable in `consume`, see `processLines`). -/
inductive PyErr where
  | badRequest
  | notImplemented
  | invalidHeader
  | versionNotSupported
  | typeError
  | indexError
deriving DecidableEq, Repr

/-- Result of `urlparse` restricted to the origin-form request targets this
parser receives (no scheme, authority, params or fragment): the target is
split at the first question mark into path and query. -/
structure UrlParts where
  path : Str
  query : Str
deriving DecidableEq, Repr

/-- `urllib.parse.urlparse`, modelled for origin-form request targets. -/
def urlparse (u : Str) : UrlParts :=
  match splitFirst 63 u with
  | none => ⟨u, []⟩
  | some (p, q) => ⟨p, q⟩

/-- One scan of `urllib.parse.unquote`: each `%XX` escape with two hex digits
becomes a byte token `(true, value)`; every other character is a literal
token `(false, c)`.  A `%` not followed by two hex digits stays literal and
scanning resumes right after it, as in CPython. -/
def unquoteTokens : Str → List (Bool × Nat)
  | 37 :: a :: b :: rest =>
    match hexVal a, hexVal b with
    | some x, some y => (true, x * 16 + y) :: unquoteTokens rest
    | _, _ => (false, 37) :: unquoteTokens (a :: b :: rest)
  | c :: rest => (false, c) :: unquoteTokens rest
  | [] => []

/-- Decode one maximal run of percent-escaped bytes as UTF-8.  CPython uses
`errors='replace'`; the failure branch (not exercised by any theorem below)
is modelled coarsely as one U+FFFD per byte. -/
def decodeEscapeRun (bs : List Nat) : Str :=
  match utf8Decode bs with
  | some s => s
  | none => bs.map fun _ => 65533

/-- Helper for `unquote`: `run` is the pending percent-escaped byte run. -/
def unquoteGroup (run : List Nat) : List (Bool × Nat) → Str
  | [] => decodeEscapeRun run
  | (true, b) :: rest => unquoteGroup (run ++ [b]) rest
  | (false, c) :: rest => decodeEscapeRun run ++ c :: unquoteGroup [] rest

/-- `urllib.parse.unquote`: percent-escape runs are UTF-8 decoded, other
characters pass through. -/
def unquote (s : Str) : Str :=
  unquoteGroup [] (unquoteTokens s)

/-- `urllib.parse.unquote_plus`: `+` becomes a space, then `unquote`. -/
def unquote_plus (s : Str) : Str :=
  unquote (s.map fun c => if c = 43 then 32 else c)

/-- Append one value to a multi-valued query dict, preserving insertion
order, as `parse_qs` builds its result. -/
def dictAppend (k : Str) (v : Str) : List (Str × List Str) → List (Str × List Str)
  | [] => [(k, [v])]
  | (k₂, vs) :: rest =>
    if k₂ = k then (k₂, vs ++ [v]) :: rest else (k₂, vs) :: dictAppend k v rest

/-- `urllib.parse.parse_qs` with default arguments: fields split on `&`,
each field split at its first `=`; fields without `=` and fields with an
empty value are dropped (`keep_blank_values=False`); keys and values are
`unquote_plus`-decoded; repeated keys accumulate a list of values. -/
def parse_qs (qs : Str) : List (Str × List Str) :=
  (pySplitOn [38] qs).foldl
    (fun m field =>
      match splitFirst 61 field with
      | none => m
      | some (k, v) =>
        if v.isEmpty then m else dictAppend (unquote_plus k) (unquote_plus v) m)
    []

/-- Python dict assignment `m[k] = v` on the ordered headers dict: an
existing key keeps its position and gets the new value, a new key is
appended. -/
def dictSet (k : Str) (v : HdrVal) : List (Str × HdrVal) → List (Str × HdrVal)
  | [] => [(k, v)]
  | (k₂, v₂) :: rest =>
    if k₂ = k then (k₂, v) :: rest else (k₂, v₂) :: dictSet k v rest

/-- Python dict lookup on the ordered headers dict. -/
def dictGet (k : Str) : List (Str × HdrVal) → Option HdrVal
  | [] => none
  | (k₂, v₂) :: rest => if k₂ = k then some v₂ else dictGet k rest

/-- The mutable state of one `Parser` instance (`Parser.__init__` plus the
attributes `parse_request_line` adds on success).  `version_number`
(a Python float) is omitted: no claim concerns it and floating point is out
of scope.  The `parent` collaborator and the `_process_headers` hook (both
no-ops for GET/POST) carry no state relevant to any claim and are omitted;
the method-table lookup that selects the hook is embedded in
`parse_request_line`. -/
structure ParserState where
  EOL_TOKEN : Option Bytes
  buffer : List Bytes
  HTTP_VERSION : Option (List Str)
  header_buffer : Option HeaderBuffer
  headers : List (Str × HdrVal)
  needs_request_line : Bool
  needs_headers : Bool
  request_length : Nat
  body_buffer : Option Bytes
  version : Option Str
  method : Option Str
  original_url : Option Str
  parsed_url : Option UrlParts
  path : Option Str
  query : Option (List (Str × List Str))
deriving DecidableEq, Repr

/-- A freshly constructed `Parser` (the state set up by `__init__`). -/
def initParser : ParserState where
  EOL_TOKEN := none
  buffer := []
  HTTP_VERSION := none
  header_buffer := none
  headers := []
  needs_request_line := true
  needs_headers := true
  request_length := 0
  body_buffer := none
  version := none
  method := none
  original_url := none
  parsed_url := none
  path := none
  query := none

/-- `Parser.find_newline`.  Before the EOL token is locked it looks for a
`\n`; the byte before it decides between `\r\n` and `\n`.  Python's
`string[line_end_pos - 1]` with `line_end_pos = 0` indexes the *last* byte
of the chunk (negative indexing), which the `p = 0` branch reproduces.
Returns the mutated state and `string.find(EOL_TOKEN)` (`none` for `-1`). -/
def find_newline (s : ParserState) (d : Bytes) : ParserState × Option Nat :=
  match s.EOL_TOKEN with
  | some tok => (s, bytesFind d tok)
  | none =>
    match bytesFind d [10] with
    | none => (s, none)
    | some p =>
      let prev := if p = 0 then d.getLast? else d.get? (p - 1)
      let tok : Bytes := if prev = some 13 then [13, 10] else [10]
      ({ s with EOL_TOKEN := some tok }, bytesFind d tok)

/-- `Parser.parse_request_line`.  Splits the decoded line on whitespace into
exactly three tokens, checks the version literal, records the version and
method, looks the method up in the GET/POST hook table (a miss raises
`HTTPErrorNotImplemented`), then parses the request target.  Mirrors the
source's mutation order: version and method are stored before the method
lookup, so they survive a `notImplemented` raise. -/
def parse_request_line (s : ParserState) (req_line : Str) :
    ParserState × Except PyErr Unit :=
  match pySplitWs req_line with
  | [method, request_uri, ver] =>
    if ver ≠ B ("HTTP/1.1") ∧ ver ≠ B ("HTTP/1.0") then
      (s, .error .versionNotSupported)
    else
      let num_str := match splitFirst 47 ver with
        | some p => p.2
        | none => ver
      let s₁ := { s with
        HTTP_VERSION := some (pySplitOn [46] num_str)
        version := some ver
        method := some method }
      if method ≠ B ("GET") ∧ method ≠ B ("POST") then
        (s₁, .error .notImplemented)
      else
        let pu := urlparse request_uri
        ({ s₁ with
            original_url := some request_uri
            parsed_url := some pu
            path := some (unquote pu.path)
            query := some (parse_qs pu.query) }, .ok ())
  | _ => (s, .error .badRequest)

/-- `Parser._flush_header_buffer`: stores the pending header into `headers`
and clears it.  When the pending buffer is `None`, Python raises `TypeError`
(`None['key']`). -/
def flush_header_buffer (s : ParserState) : ParserState × Except PyErr Unit :=
  match s.header_buffer with
  | none => (s, .error .typeError)
  | some hb =>
    ({ s with headers := dictSet hb.key hb.value s.headers, header_buffer := none },
      .ok ())

/-- `Parser.is_invalid_header_name`: empty, or containing a character of
`INVALID_CHAR_REGEX` — ASCII controls (0x00–0x1F, 0x7F), space, tab and the
delimiters `( ) , / : ; < = > ? @ [ ] \x7b \x7d \ "`. -/
def is_invalid_header_name (s : Str) : Bool :=
  s.isEmpty || s.any fun c =>
    c ≤ 31 || c == 127 ||
    c == 40 || c == 41 || c == 44 || c == 47 || c == 58 || c == 59 ||
    c == 60 || c == 61 || c == 62 || c == 63 || c == 64 || c == 91 ||
    c == 93 || c == 123 || c == 125 || c == 32 || c == 92 || c == 34

/-- `Parser.header_from_line`: split on the first colon (`ValueError` →
`HTTPErrorInvalidHeader`), strip both sides, validate the key against the
disallowed-character set, upper-case the key.  The colored diagnostic print
is presentation only and is not modelled. -/
def header_from_line (line : Str) : Except PyErr HeaderBuffer :=
  match splitFirst 58 line with
  | none => .error .invalidHeader
  | some (k, v) =>
    let key := pyStrip k
    let value := pyStrip v
    if is_invalid_header_name key then .error .invalidHeader
    else .ok ⟨pyUpper key, .str value⟩

/-- `Parser.store_headers_from_lines`: the `for lineno, line in enumerate`
loop.  An empty line (`line is b''`; in CPython the empty bytes object is a
singleton, so this is equality) flushes the pending header, stores
`b''.join(lines[lineno:])` — the remaining batch from the blank line on —
as `body_buffer` and breaks.  A decoded line starting with space or tab
folds into the pending header (promoting its value to a list), raising
`HTTPErrorInvalidHeader` when no header is pending.  Any other line first
flushes a truthy pending header, then becomes the new pending header. -/
def store_headers_from_lines (s : ParserState) :
    List Bytes → ParserState × Except PyErr Unit
  | [] => (s, .ok ())
  | line :: rest =>
    if line = ([] : Bytes) then
      match flush_header_buffer s with
      | (s₁, .error e) => (s₁, .error e)
      | (s₁, .ok ()) =>
        ({ s₁ with body_buffer := some (List.flatten (line :: rest)) }, .ok ())
    else
      match utf8Decode line with
      | none => (s, .error .badRequest)
      | some l =>
        if l.head? = some 32 ∨ l.head? = some 9 then
          match s.header_buffer with
          | none => (s, .error .invalidHeader)
          | some hb =>
            let stripped := pyStrip l
            let hb₂ := match hb.value with
              | .str v => HeaderBuffer.mk hb.key (.list [v, stripped])
              | .list vs => HeaderBuffer.mk hb.key (.list (vs ++ [stripped]))
            store_headers_from_lines { s with header_buffer := some hb₂ } rest
        else
          let s₁ :=
            match s.header_buffer with
            | some hb =>
              { s with headers := dictSet hb.key hb.value s.headers,
                       header_buffer := none }
            | none => s
          match header_from_line l with
          | .error e => (s₁, .error e)
          | .ok hb => store_headers_from_lines { s₁ with header_buffer := some hb } rest

/-- The tail of `Parser.consume` from `if not lines: return` on: an empty
batch returns `None`; while headers are needed the batch goes through the
header accumulator, and header completion (empty pending buffer) flips
`needs_headers`; finally `self.body_buffer` is returned. -/
def afterRequestLine (s : ParserState) (lines : List Bytes) :
    ParserState × Except PyErr (Option Bytes) :=
  if lines.isEmpty then (s, .ok none)
  else if s.needs_headers then
    match store_headers_from_lines s lines with
    | (s₁, .error e) => (s₁, .error e)
    | (s₁, .ok ()) =>
      let s₂ := if s₁.header_buffer.isSome then s₁
                else { s₁ with needs_headers := false }
      (s₂, .ok s₂.body_buffer)
  else (s, .ok s.body_buffer)

/-- The line-dispatch part of `Parser.consume`: while the request line is
needed, `lines.pop(0)` (on an empty list Python would raise `IndexError`;
unreachable, since a found token yields at least one complete line) is
decoded (`UnicodeDecodeError` → `HTTPErrorBadRequest`) and parsed, and
success flips `needs_request_line`. -/
def processLines (s : ParserState) (lines : List Bytes) :
    ParserState × Except PyErr (Option Bytes) :=
  if s.needs_request_line then
    match lines with
    | [] => (s, .error .indexError)
    | l₀ :: rest =>
      match utf8Decode l₀ with
      | none => (s, .error .badRequest)
      | some rl =>
        match parse_request_line s rl with
        | (s₁, .error e) => (s₁, .error e)
        | (s₁, .ok ()) =>
          afterRequestLine { s₁ with needs_request_line := false } rest
  else
    afterRequestLine s lines

/-- `Parser.consume`.  Adds the chunk length to `request_length` and raises
`HTTPErrorBadRequest` beyond `MAX_REQUEST_LENGTH`; a chunk in which
`find_newline` finds no token is appended to `_buffer` with a `None` result;
otherwise the concatenation of `_buffer` and the chunk is split on the EOL
token, the final (incomplete) element is retained as the new buffer — or the
buffer is cleared when the chunk ends exactly on the token — and the
complete lines are dispatched. -/
def consume (s₀ : ParserState) (data : Bytes) :
    ParserState × Except PyErr (Option Bytes) :=
  let s₁ := { s₀ with request_length := s₀.request_length + data.length }
  if MAX_REQUEST_LENGTH < s₁.request_length then (s₁, .error .badRequest)
  else
    match find_newline s₁ data with
    | (s₂, none) => ({ s₂ with buffer := s₂.buffer ++ [data] }, .ok none)
    | (s₂, some _) =>
      -- find_newline only reports an index after locking EOL_TOKEN
      let tok := s₂.EOL_TOKEN.getD [10]
      let allLines := pySplitOn tok (List.flatten (s₂.buffer ++ [data]))
      let last_line := allLines.getLastD []
      let lines := allLines.dropLast
      let s₃ := if tok.isSuffixOf data then { s₂ with buffer := [] }
                else { s₂ with buffer := [last_line] }
      processLines s₃ lines

/-- Feed a sequence of chunks through repeated `consume` calls on one
parser, as the transport does; an exception stops the sequence.  Returns the
final state and the last call's result. -/
def feed (s : ParserState) : List Bytes → ParserState × Except PyErr (Option Bytes)
  | [] => (s, .ok none)
  | [c] => consume s c
  | c :: rest =>
    match consume s c with
    | (s₁, .ok _) => feed s₁ rest
    | (s₁, .error e) => (s₁, .error e)

/-- Split a byte stream into its one-byte chunks. -/
def oneByteChunks (d : Bytes) : List Bytes :=
  d.map fun b => [b]

deriving instance DecidableEq for Except

/-- The Scenario-1 request byte stream
`b"GET /a?x=1 HTTP/1.1\r\nHost: h\r\n\r\nBODY"`. -/
def scenario1 : Bytes := B ("GET /a?x=1 HTTP/1.1\r\nHost: h\r\n\r\nBODY")

/-- **C1** (code bug evidence) — Chunking invariance fails.  A single
`consume` of the Scenario-1 stream locks the EOL token to `\r\n`, completes
the headers as `{HOST: h}` and returns the (empty) body prefix; feeding the
very same bytes one byte at a time locks the EOL token to `\n` instead
(`find_newline` inspects only the 1-byte chunk `b"\n"`, whose "preceding"
byte wraps around to the chunk's own last byte), so the header terminator
arrives as the line `b"\r"` and the parser raises
`HTTPErrorInvalidHeader` instead of reaching the same final state. -/
theorem C1_chunking_invariance_fails :
    (consume initParser scenario1).2 = .ok (some []) ∧
    (consume initParser scenario1).1.needs_headers = false ∧
    (consume initParser scenario1).1.headers = [(B ("HOST"), .str (B ("h")))] ∧
    (consume initParser scenario1).1.EOL_TOKEN = some [13, 10] ∧
    (feed initParser (oneByteChunks scenario1)).2 = .error .invalidHeader ∧
    (feed initParser (oneByteChunks scenario1)).1.EOL_TOKEN = some [10] := by
  decide

/-- **C2** (counterexample) — the single `consume` call on the Scenario-1
stream does not return `b"BODY"`: it returns the empty byte string (the
join of the batch from the blank line on), `b"BODY"` being retained in the
pending buffer as an incomplete line. -/
theorem C2_returned_body_counterexample :
    (consume initParser scenario1).2 ≠ .ok (some (B ("BODY"))) ∧
    (consume initParser scenario1).2 = .ok (some []) ∧
    (consume initParser scenario1).1.buffer = [B ("BODY")] := by
  decide

/-- **C2** (amended) — for the single consume call with the Scenario-1
input on a fresh Parser: method `GET`, percent-decoded path `/a`, query
`{x: ["1"]}`, version `HTTP/1.1`, headers `{HOST: "h"}`; the call returns
the empty byte string `b""` as body bytes, while `b"BODY"` remains in the
pending buffer as an incomplete line. -/
theorem C2_scenario1_final_state :
    consume initParser scenario1 =
      ({ EOL_TOKEN := some [13, 10]
         buffer := [B ("BODY")]
         HTTP_VERSION := some [[49], [49]]
         header_buffer := none
         headers := [(B ("HOST"), .str (B ("h")))]
         needs_request_line := false
         needs_headers := false
         request_length := 36
         body_buffer := some []
         version := some (B ("HTTP/1.1"))
         method := some (B ("GET"))
         original_url := some (B ("/a?x=1"))
         parsed_url := some ⟨B ("/a"), B ("x=1")⟩
         path := some (B ("/a"))
         query := some [(B ("x"), [B ("1")])] }, .ok (some [])) := by
  decide

/-- **C10** — a well-formed request whose blank header-terminator line
arrives with no preceding header line (`b"GET / HTTP/1.1\r\n\r\n"`): the
blank-line branch unconditionally flushes the pending header buffer, which
is still `None`, so subscripting it raises an unclassified `TypeError`
(modelled as `PyErr.typeError`, distinct from the four classified parser
errors); `consume` neither completes with an empty headers map nor raises a
classified error. -/
theorem C10_zero_headers_type_error :
    (consume initParser (B ("GET / HTTP/1.1\r\n\r\n"))).2 = .error .typeError ∧
    (consume initParser (B ("GET / HTTP/1.1\r\n\r\n"))).1.needs_headers = true ∧
    (consume initParser (B ("GET / HTTP/1.1\r\n\r\n"))).1.headers = [] := by
  decide

/-! ## General lemmas about `consume` -/

/-- When the cumulative size stays within bounds and `find_newline` reports
no token in the chunk, `consume` only appends the chunk to the pending
buffer (the EOL token being already locked). -/
theorem consume_no_token_buffers (s : ParserState) (c tok : Bytes)
    (he : s.EOL_TOKEN = some tok) (hf : bytesFind c tok = none)
    (hsz : s.request_length + c.length ≤ MAX_REQUEST_LENGTH) :
    consume s c =
      ({ s with request_length := s.request_length + c.length,
                buffer := s.buffer ++ [c] }, .ok none) := by
  unfold consume find_newline
  simp only [he, Nat.not_lt.mpr hsz, if_false, hf]

/-- The size check happens first: when the chunk pushes `request_length`
beyond `MAX_REQUEST_LENGTH`, `consume` raises `HTTPErrorBadRequest` with no
other state change. -/
theorem consume_size_exceeded (s : ParserState) (d : Bytes)
    (h : MAX_REQUEST_LENGTH < s.request_length + d.length) :
    consume s d =
      ({ s with request_length := s.request_length + d.length }, .error .badRequest) := by
  unfold consume
  simp only [h, if_true]

/-- **C3** (counterexample) — the EOL token spanning the boundary between a
buffered fragment and the new chunk is not detected.  From a fresh parser:
after `b"GET / HTTP/1.1\r\n"` (locks `\r\n`, parses the request line),
`b"Host: h\r"` (buffered) and `b"\n"` (the concatenation of buffer and
chunk now contains the locked token `\r\n` at offset 7), the third call
produces no lines: it returns need-more-data, the headers map stays empty
and the chunk is merely appended to the pending buffer. -/
theorem C3_boundary_token_not_detected :
    (feed initParser
        [B ("GET / HTTP/1.1\r\n"), B ("Host: h\r"), B ("\n")]).2 = .ok none ∧
    (feed initParser
        [B ("GET / HTTP/1.1\r\n"), B ("Host: h\r"), B ("\n")]).1.headers = [] ∧
    (feed initParser
        [B ("GET / HTTP/1.1\r\n"), B ("Host: h\r"), B ("\n")]).1.needs_headers = true ∧
    (feed initParser
        [B ("GET / HTTP/1.1\r\n"), B ("Host: h\r"), B ("\n")]).1.buffer =
      [B ("Host: h\r"), B ("\n")] ∧
    bytesFind (List.flatten [B ("Host: h\r"), B ("\n")]) [13, 10] = some 7 := by
  decide

/-- **C3** (amended) — EOL detection in `consume` runs against the new
chunk alone, not the concatenation: whenever the locked EOL token does not
occur in the new chunk — even if the concatenation of the pending buffer
and the chunk does contain it — no lines are produced in that call; the
chunk is appended to the pending buffer and need-more-data (`None`) is
returned. -/
theorem C3_eol_detection_chunk_only (s : ParserState) (c tok : Bytes)
    (he : s.EOL_TOKEN = some tok)
    (_hconcat : (bytesFind (List.flatten s.buffer ++ c) tok).isSome)
    (hf : bytesFind c tok = none)
    (hsz : s.request_length + c.length ≤ MAX_REQUEST_LENGTH) :
    consume s c =
      ({ s with request_length := s.request_length + c.length,
                buffer := s.buffer ++ [c] }, .ok none) :=
  consume_no_token_buffers s c tok he hf hsz

/-- Witness for `C3_eol_detection_chunk_only`: a parser that has locked
`\r\n` and buffered `b"Host: h\r"` receives the chunk `b"\n"`. -/
theorem C3_eol_detection_chunk_only_witness :
    consume
      { initParser with
          EOL_TOKEN := some [13, 10]
          buffer := [B ("Host: h\r")]
          needs_request_line := false
          request_length := 24 }
      (B ("\n")) =
    ({ initParser with
        EOL_TOKEN := some [13, 10]
        buffer := [B ("Host: h\r"), B ("\n")]
        needs_request_line := false
        request_length := 25 }, .ok none) := by
  have h := C3_eol_detection_chunk_only
    { initParser with
        EOL_TOKEN := some [13, 10]
        buffer := [B ("Host: h\r")]
        needs_request_line := false
        request_length := 24 }
    (B ("\n")) [13, 10] (by decide) (by decide) (by decide) (by decide)
  exact h.trans (by decide)

/-- Whether `findAux` succeeds does not depend on the index argument. -/
theorem findAux_isSome_congr (sep : List Nat) :
    ∀ (s : List Nat) (i j : Nat), (findAux sep s i).isSome = (findAux sep s j).isSome := by
  intro s
  induction s with
  | nil => intro i j; simp [findAux]
  | cons a t ih =>
    intro i j
    unfold findAux
    by_cases h : sep.isPrefixOf (a :: t)
    · simp [h]
    · simp only [h, if_false]
      exact ih (i + 1) (j + 1)

/-- `pySplitOnAux` always yields at least one segment. -/
theorem pySplitOnAux_length_pos (sep : List Nat) :
    ∀ (s : List Nat) (k : Nat) (acc : List Nat),
      1 ≤ (pySplitOnAux sep s k acc).length := by
  intro s
  induction s with
  | nil => intro k acc; simp [pySplitOnAux]
  | cons b rest ih =>
    intro k acc
    cases k with
    | succ k₂ => simpa only [pySplitOnAux] using ih k₂ acc
    | zero =>
      unfold pySplitOnAux
      by_cases h : sep.isPrefixOf (b :: rest)
      · simp [h]
      · simp only [h, if_false]
        exact ih 0 (b :: acc)

/-- When the separator occurs in the input, the split has at least two
segments. -/
theorem pySplitOnAux_length_two (sep : List Nat) :
    ∀ (s : List Nat) (acc : List Nat),
      (findAux sep s 0).isSome → 2 ≤ (pySplitOnAux sep s 0 acc).length := by
  intro s
  induction s with
  | nil => intro acc h; simp [findAux] at h
  | cons b rest ih =>
    intro acc h
    by_cases hp : sep.isPrefixOf (b :: rest)
    · unfold pySplitOnAux
      simp only [hp, if_true, List.length_cons]
      have := pySplitOnAux_length_pos sep rest (sep.length - 1) []
      omega
    · unfold findAux at h
      rw [if_neg hp] at h
      rw [findAux_isSome_congr sep rest 1 0] at h
      unfold pySplitOnAux
      rw [if_neg hp]
      exact ih (b :: acc) h

/-- A pattern found in `c` is found in `x ++ c`. -/
theorem findAux_append_isSome (sep : List Nat) :
    ∀ (x c : List Nat) (i j : Nat),
      (findAux sep c i).isSome → (findAux sep (x ++ c) j).isSome := by
  intro x
  induction x with
  | nil =>
    intro c i j h
    rw [List.nil_append, findAux_isSome_congr sep c j i]
    exact h
  | cons a t ih =>
    intro c i j h
    show (findAux sep (a :: (t ++ c)) j).isSome
    unfold findAux
    by_cases hp : sep.isPrefixOf (a :: (t ++ c))
    · simp [hp]
    · simp only [hp, if_false]
      exact ih c i (j + 1) h

/-- **C4** (amended) — after headers are complete, `consume` bypasses the
request-line parser and the header accumulator, but it does not return the
call's raw payload: a chunk without the EOL token is appended to the
pending buffer with a `None` result, and a chunk containing the token makes
the call return the previously stored `body_buffer` (the body prefix
captured at header completion), leaving headers, method, pending header and
body buffer untouched. -/
theorem C4_post_headers_behaviour (s : ParserState) (c tok : Bytes)
    (hrl : s.needs_request_line = false) (hh : s.needs_headers = false)
    (he : s.EOL_TOKEN = some tok) (htok : tok ≠ [])
    (hsz : s.request_length + c.length ≤ MAX_REQUEST_LENGTH) :
    (bytesFind c tok = none →
      consume s c =
        ({ s with request_length := s.request_length + c.length,
                  buffer := s.buffer ++ [c] }, .ok none)) ∧
    ((bytesFind c tok).isSome →
      (consume s c).2 = .ok s.body_buffer ∧
      (consume s c).1.headers = s.headers ∧
      (consume s c).1.header_buffer = s.header_buffer ∧
      (consume s c).1.method = s.method ∧
      (consume s c).1.body_buffer = s.body_buffer ∧
      (consume s c).1.needs_request_line = false ∧
      (consume s c).1.needs_headers = false) := by
  constructor
  · intro hf
    exact consume_no_token_buffers s c tok he hf hsz
  · intro hf
    have hfl : List.flatten (s.buffer ++ [c]) = List.flatten s.buffer ++ c := by
      simp
    have hfind : (findAux tok (List.flatten (s.buffer ++ [c])) 0).isSome := by
      rw [hfl]
      unfold bytesFind at hf
      rw [if_neg (by simpa using htok)] at hf
      exact findAux_append_isSome tok (List.flatten s.buffer) c 0 0 hf
    have hlines :
        2 ≤ (pySplitOn tok (List.flatten (s.buffer ++ [c]))).length :=
      pySplitOnAux_length_two tok _ [] hfind
    obtain ⟨i, hi⟩ := Option.isSome_iff_exists.mp hf
    unfold consume find_newline
    simp only [he, Nat.not_lt.mpr hsz, if_false, hi]
    have hgd : (Option.getD (some tok) [10] : Bytes) = tok := rfl
    have hne₂ : (pySplitOn tok (List.flatten s.buffer ++ c)).dropLast ≠ [] := by
      rw [← hfl]
      intro h0
      have h1 : 1 ≤ (pySplitOn tok (List.flatten (s.buffer ++ [c]))).dropLast.length := by
        rw [List.length_dropLast]
        omega
      rw [h0] at h1
      simp at h1
    unfold processLines afterRequestLine
    by_cases hsuf : tok.isSuffixOf c <;>
      simp [hsuf, hrl, hh, hne₂, hgd]

/-- **C4** (counterexample) — after headers are complete, `consume` does not
return the call's raw payload.  After a single call completing the headers,
the chunk `b"XYZ"` (no EOL token) yields `None` and is buffered, and the
chunk `b"ABC\r\n"` yields the stale stored body prefix `b""` — neither
returns the chunk's payload. -/
theorem C4_raw_payload_counterexample :
    (consume initParser (B ("GET / HTTP/1.1\r\nHost: h\r\n\r\n"))).1.needs_headers
        = false ∧
    (consume (consume initParser (B ("GET / HTTP/1.1\r\nHost: h\r\n\r\n"))).1
        (B ("XYZ"))).2 = .ok none ∧
    (consume (consume initParser (B ("GET / HTTP/1.1\r\nHost: h\r\n\r\n"))).1
        (B ("XYZ"))).2 ≠ .ok (some (B ("XYZ"))) ∧
    (consume (consume initParser (B ("GET / HTTP/1.1\r\nHost: h\r\n\r\n"))).1
        (B ("ABC\r\n"))).2 = .ok (some []) ∧
    (consume (consume initParser (B ("GET / HTTP/1.1\r\nHost: h\r\n\r\n"))).1
        (B ("ABC\r\n"))).2 ≠ .ok (some (B ("ABC\r\n"))) := by
  decide

/-- Witness for `C4_post_headers_behaviour`: a post-headers parser state
with stored body prefix `b"PRE"` receives `b"XYZ"` (buffered, `None`) and
`b"ABC\r\n"` (returns the stale `b"PRE"`). -/
theorem C4_post_headers_behaviour_witness :
    consume
      { initParser with
          needs_request_line := false
          needs_headers := false
          EOL_TOKEN := some [13, 10]
          body_buffer := some (B ("PRE"))
          request_length := 30 }
      (B ("XYZ")) =
      ({ initParser with
          needs_request_line := false
          needs_headers := false
          EOL_TOKEN := some [13, 10]
          body_buffer := some (B ("PRE"))
          request_length := 33
          buffer := [B ("XYZ")] }, .ok none) ∧
    (consume
      { initParser with
          needs_request_line := false
          needs_headers := false
          EOL_TOKEN := some [13, 10]
          body_buffer := some (B ("PRE"))
          request_length := 30 }
      (B ("ABC\r\n"))).2 = .ok (some (B ("PRE"))) := by
  constructor
  · have h := (C4_post_headers_behaviour
      { initParser with
          needs_request_line := false
          needs_headers := false
          EOL_TOKEN := some [13, 10]
          body_buffer := some (B ("PRE"))
          request_length := 30 }
      (B ("XYZ")) [13, 10] rfl rfl rfl (by decide) (by decide)).1 (by decide)
    exact h.trans (by decide)
  · exact ((C4_post_headers_behaviour
      { initParser with
          needs_request_line := false
          needs_headers := false
          EOL_TOKEN := some [13, 10]
          body_buffer := some (B ("PRE"))
          request_length := 30 }
      (B ("ABC\r\n")) [13, 10] rfl rfl rfl (by decide) (by decide)).2 (by decide)).1

/-- **C6** — request-line failures are classified into three distinct
errors, in this order: a line whose whitespace split does not have exactly
three tokens raises `HTTPErrorBadRequest`; a three-token line whose version
is neither `HTTP/1.1` nor `HTTP/1.0` raises `HTTPErrorVersionNotSupported`;
a three-token line with a supported version whose method is not in the
fixed GET/POST table raises `HTTPErrorNotImplemented`. -/
theorem C6_request_line_error_classes (s : ParserState) (line : Str) :
    ((pySplitWs line).length ≠ 3 →
      (parse_request_line s line).2 = .error .badRequest) ∧
    (∀ m u v, pySplitWs line = [m, u, v] →
      v ≠ B ("HTTP/1.1") → v ≠ B ("HTTP/1.0") →
      (parse_request_line s line).2 = .error .versionNotSupported) ∧
    (∀ m u v, pySplitWs line = [m, u, v] →
      (v = B ("HTTP/1.1") ∨ v = B ("HTTP/1.0")) →
      m ≠ B ("GET") → m ≠ B ("POST") →
      (parse_request_line s line).2 = .error .notImplemented) := by
  refine ⟨?_, ?_, ?_⟩
  · intro hlen
    unfold parse_request_line
    rcases hsp : pySplitWs line with _ | ⟨a, _ | ⟨b, _ | ⟨c, _ | ⟨d, t⟩⟩⟩⟩
    · simp
    · simp
    · simp
    · rw [hsp] at hlen; simp at hlen
    · simp
  · intro m u v hsp hv1 hv2
    unfold parse_request_line
    rw [hsp]
    simp [hv1, hv2]
  · intro m u v hsp hv hm1 hm2
    unfold parse_request_line
    rw [hsp]
    rcases hv with rfl | rfl <;> simp [hm1, hm2]

/-- Witness for `C6_request_line_error_classes`: `"GET /"` (two tokens) is a
`badRequest`, `"GET / HTTP/2.0"` is `versionNotSupported`, and
`"PUT / HTTP/1.1"` is `notImplemented`. -/
theorem C6_request_line_error_classes_witness :
    (parse_request_line initParser (B ("GET /"))).2 = .error .badRequest ∧
    (parse_request_line initParser (B ("GET / HTTP/2.0"))).2
        = .error .versionNotSupported ∧
    (parse_request_line initParser (B ("PUT / HTTP/1.1"))).2
        = .error .notImplemented := by
  refine ⟨?_, ?_, ?_⟩
  · exact (C6_request_line_error_classes initParser (B ("GET /"))).1 (by decide)
  · exact (C6_request_line_error_classes initParser (B ("GET / HTTP/2.0"))).2.1
      (B ("GET")) (B ("/")) (B ("HTTP/2.0")) (by decide) (by decide) (by decide)
  · exact (C6_request_line_error_classes initParser (B ("PUT / HTTP/1.1"))).2.2
      (B ("PUT")) (B ("/")) (B ("HTTP/1.1")) (by decide) (Or.inl rfl)
      (by decide) (by decide)

/-- `parse_request_line` never touches `request_length`, `EOL_TOKEN`,
`_buffer` or the two `needs_*` flags. -/
theorem parse_request_line_preserves (s : ParserState) (l : Str) :
    (parse_request_line s l).1.request_length = s.request_length ∧
    (parse_request_line s l).1.EOL_TOKEN = s.EOL_TOKEN ∧
    (parse_request_line s l).1.needs_request_line = s.needs_request_line ∧
    (parse_request_line s l).1.needs_headers = s.needs_headers := by
  unfold parse_request_line
  rcases hsp : pySplitWs l with _ | ⟨m, _ | ⟨u, _ | ⟨v, _ | ⟨d, t⟩⟩⟩⟩
  · simp
  · simp
  · simp
  · by_cases h1 : v ≠ B ("HTTP/1.1") ∧ v ≠ B ("HTTP/1.0")
    · simp [h1]
    · by_cases h2 : ¬m = B ("GET") ∧ ¬m = B ("POST")
      · simp [h1, h2]
      · simp [h1, h2]
  · simp

/-- `_flush_header_buffer` never touches `request_length`, `EOL_TOKEN` or
the two `needs_*` flags. -/
theorem flush_header_buffer_preserves (s : ParserState) :
    (flush_header_buffer s).1.request_length = s.request_length ∧
    (flush_header_buffer s).1.EOL_TOKEN = s.EOL_TOKEN ∧
    (flush_header_buffer s).1.needs_request_line = s.needs_request_line ∧
    (flush_header_buffer s).1.needs_headers = s.needs_headers := by
  unfold flush_header_buffer
  cases s.header_buffer <;> simp

/-- `store_headers_from_lines` never touches `request_length`, `EOL_TOKEN`
or the two `needs_*` flags. -/
theorem store_headers_preserves :
    ∀ (lines : List Bytes) (s : ParserState),
      (store_headers_from_lines s lines).1.request_length = s.request_length ∧
      (store_headers_from_lines s lines).1.EOL_TOKEN = s.EOL_TOKEN ∧
      (store_headers_from_lines s lines).1.needs_request_line = s.needs_request_line ∧
      (store_headers_from_lines s lines).1.needs_headers = s.needs_headers := by
  intro lines
  induction lines with
  | nil => intro s; simp [store_headers_from_lines]
  | cons line rest ih =>
    intro s
    unfold store_headers_from_lines
    by_cases hb : line = ([] : Bytes)
    · rw [if_pos hb]
      rcases hfl : flush_header_buffer s with ⟨s₁, r⟩
      have hpres := flush_header_buffer_preserves s
      rw [hfl] at hpres
      cases r with
      | error e => simpa using hpres
      | ok u => cases u; simpa using hpres
    · rw [if_neg hb]
      rcases hdec : utf8Decode line with _ | l
      · simp
      · simp only []
        by_cases hc : l.head? = some 32 ∨ l.head? = some 9
      
        · rw [if_pos hc]
          rcases hhb : s.header_buffer with _ | hbuf
          · simp
          · simpa using ih _
        · rw [if_neg hc]
          rcases hhl : header_from_line l with e | hb₂
          · rcases hhb : s.header_buffer with _ | hbuf <;> simp [hhb]
          · rcases hhb : s.header_buffer with _ | hbuf <;> simpa [hhb] using ih _

/-- The post-request-line dispatch preserves `request_length` and
`EOL_TOKEN`, never resurrects `needs_request_line`, and only ever lowers
`needs_headers`. -/
theorem afterRequestLine_preserves (s : ParserState) (lines : List Bytes) :
    (afterRequestLine s lines).1.request_length = s.request_length ∧
    (afterRequestLine s lines).1.EOL_TOKEN = s.EOL_TOKEN ∧
    (afterRequestLine s lines).1.needs_request_line = s.needs_request_line ∧
    ((afterRequestLine s lines).1.needs_headers = s.needs_headers ∨
      (afterRequestLine s lines).1.needs_headers = false) := by
  unfold afterRequestLine
  by_cases hemp : lines.isEmpty
  · simp [hemp]
  · rw [if_neg hemp]
    by_cases hnh : s.needs_headers
    · rw [if_pos hnh]
      rcases hst : store_headers_from_lines s lines with ⟨s₁, r⟩
      have hpres := store_headers_preserves lines s
      rw [hst] at hpres
      cases r with
      | error e =>
        exact ⟨by simpa using hpres.1, by simpa using hpres.2.1,
          by simpa using hpres.2.2.1, Or.inl (by simpa using hpres.2.2.2)⟩
      | ok u =>
        cases u
        by_cases hhb : s₁.header_buffer.isSome
        · exact ⟨by simpa [hhb] using hpres.1, by simpa [hhb] using hpres.2.1,
            by simpa [hhb] using hpres.2.2.1,
            Or.inl (by simpa [hhb] using hpres.2.2.2)⟩
        · exact ⟨by simpa [hhb] using hpres.1, by simpa [hhb] using hpres.2.1,
            by simpa [hhb] using hpres.2.2.1, Or.inr (by simp [hhb])⟩
    · rw [if_neg hnh]
      simp

/-- Line dispatch preserves `request_length` and `EOL_TOKEN` and can only
lower the `needs_request_line` and `needs_headers` flags. -/
theorem processLines_preserves (s : ParserState) (lines : List Bytes) :
    (processLines s lines).1.request_length = s.request_length ∧
    (processLines s lines).1.EOL_TOKEN = s.EOL_TOKEN ∧
    ((processLines s lines).1.needs_request_line = s.needs_request_line ∨
      (processLines s lines).1.needs_request_line = false) ∧
    ((processLines s lines).1.needs_headers = s.needs_headers ∨
      (processLines s lines).1.needs_headers = false) := by
  unfold processLines
  by_cases hrl : s.needs_request_line
  · rw [if_pos hrl]
    cases lines with
    | nil => simp
    | cons l₀ rest =>
      rcases hdec : utf8Decode l₀ with _ | rl
      · simp [hdec]
      · simp only [hdec]
        rcases hpr : parse_request_line s rl with ⟨s₁, r⟩
        have hpres := parse_request_line_preserves s rl
        rw [hpr] at hpres
        cases r with
        | error e =>
          exact ⟨by simpa using hpres.1, by simpa using hpres.2.1,
            Or.inl (by simpa using hpres.2.2.1),
            Or.inl (by simpa using hpres.2.2.2)⟩
        | ok u =>
          cases u
          have happ := afterRequestLine_preserves
            { s₁ with needs_request_line := false } rest
          refine ⟨?_, ?_, ?_, ?_⟩
          · simp only []
            rw [happ.1]
            simpa using hpres.1
          · simp only []
            rw [happ.2.1]
            simpa using hpres.2.1
          · exact Or.inr (by simpa using happ.2.2.1)
          · rcases happ.2.2.2 with h | h
            · exact Or.inl (by rw [h]; simpa using hpres.2.2.2)
            · exact Or.inr h
  · rw [if_neg hrl]
    have happ := afterRequestLine_preserves s lines
    exact ⟨happ.1, happ.2.1, Or.inl happ.2.2.1, happ.2.2.2⟩

/-- `find_newline` only ever sets a previously unset `EOL_TOKEN` and
touches nothing else. -/
theorem find_newline_preserves (s : ParserState) (d : Bytes) :
    (find_newline s d).1.request_length = s.request_length ∧
    (∀ t, s.EOL_TOKEN = some t → (find_newline s d).1.EOL_TOKEN = some t) ∧
    (find_newline s d).1.needs_request_line = s.needs_request_line ∧
    (find_newline s d).1.needs_headers = s.needs_headers := by
  unfold find_newline
  rcases he : s.EOL_TOKEN with _ | t₀
  · rcases hf : bytesFind d [10] with _ | p
    · simp [he]
    · simp [he]
  · simp [he]

/-- Helper for `consume_preserves`: the dispatch step of `consume` keeps
the invariants relative to the pre-call state. -/
theorem processLines_invariant_step (s s₂ : ParserState) (c : Bytes)
    (b L : List Bytes)
    (h1 : s₂.request_length = s.request_length + c.length)
    (h2 : ∀ t, s.EOL_TOKEN = some t → s₂.EOL_TOKEN = some t)
    (h3 : s₂.needs_request_line = s.needs_request_line)
    (h4 : s₂.needs_headers = s.needs_headers) :
    s.request_length ≤ (processLines { s₂ with buffer := b } L).1.request_length ∧
    (∀ t, s.EOL_TOKEN = some t →
      (processLines { s₂ with buffer := b } L).1.EOL_TOKEN = some t) ∧
    (s.needs_request_line = false →
      (processLines { s₂ with buffer := b } L).1.needs_request_line = false) ∧
    (s.needs_headers = false →
      (processLines { s₂ with buffer := b } L).1.needs_headers = false) := by
  have hp := processLines_preserves { s₂ with buffer := b } L
  refine ⟨?_, ?_, ?_, ?_⟩
  · rw [hp.1]
    show s.request_length ≤ s₂.request_length
    rw [h1]
    exact Nat.le_add_right _ _
  · intro t h
    rw [hp.2.1]
    exact h2 t h
  · intro h
    rcases hp.2.2.1 with h₂ | h₂
    · rw [h₂]
      show s₂.needs_request_line = false
      rw [h3]
      exact h
    · exact h₂
  · intro h
    rcases hp.2.2.2 with h₂ | h₂
    · rw [h₂]
      show s₂.needs_headers = false
      rw [h4]
      exact h
    · exact h₂

/-- One `consume` step: `request_length` never decreases, a locked
`EOL_TOKEN` never changes, and the `needs_request_line` / `needs_headers`
flags never go back from `false` to `true`. -/
theorem consume_preserves (s : ParserState) (c : Bytes) :
    s.request_length ≤ (consume s c).1.request_length ∧
    (∀ t, s.EOL_TOKEN = some t → (consume s c).1.EOL_TOKEN = some t) ∧
    (s.needs_request_line = false → (consume s c).1.needs_request_line = false) ∧
    (s.needs_headers = false → (consume s c).1.needs_headers = false) := by
  unfold consume
  by_cases hsz : MAX_REQUEST_LENGTH < s.request_length + c.length
  · simp only [hsz, if_true]
    exact ⟨Nat.le_add_right _ _, fun t h => h, fun h => h, fun h => h⟩
  · simp only [hsz, if_false]
    rcases hfn : find_newline { s with request_length := s.request_length + c.length } c
      with ⟨s₂, fr⟩
    have hfp := find_newline_preserves
      { s with request_length := s.request_length + c.length } c
    rw [hfn] at hfp
    have h1 : s₂.request_length = s.request_length + c.length := hfp.1
    have h2 : ∀ t, s.EOL_TOKEN = some t → s₂.EOL_TOKEN = some t := hfp.2.1
    have h3 : s₂.needs_request_line = s.needs_request_line := hfp.2.2.1
    have h4 : s₂.needs_headers = s.needs_headers := hfp.2.2.2
    cases fr with
    | none =>
      refine ⟨?_, fun t h => h2 t h, fun h => ?_, fun h => ?_⟩
      · show s.request_length ≤ s₂.request_length
        rw [h1]
        exact Nat.le_add_right _ _
      · show s₂.needs_request_line = false
        rw [h3]
        exact h
      · show s₂.needs_headers = false
        rw [h4]
        exact h
    | some p =>
      by_cases hsuf : (s₂.EOL_TOKEN.getD [10]).isSuffixOf c
      · simp only [hsuf, if_true]
        exact processLines_invariant_step s s₂ c _ _ h1 h2 h3 h4
      · simp only [hsuf, if_false]
        exact processLines_invariant_step s s₂ c _ _ h1 h2 h3 h4

/-- **C9** — parser-state invariants across every sequence of `consume`
calls: the cumulative `request_length` is monotonically non-decreasing; the
`EOL_TOKEN`, once set, never changes for the lifetime of the instance
(later lines are split with the locked token, `find_newline` never
re-detects); and `needs_request_line` and `needs_headers` only ever
transition from `true` to `false`, never back. -/
theorem C9_parser_state_invariants (s : ParserState) (chunks : List Bytes) :
    s.request_length ≤ (feed s chunks).1.request_length ∧
    (∀ t, s.EOL_TOKEN = some t → (feed s chunks).1.EOL_TOKEN = some t) ∧
    (s.needs_request_line = false → (feed s chunks).1.needs_request_line = false) ∧
    (s.needs_headers = false → (feed s chunks).1.needs_headers = false) := by
  induction chunks generalizing s with
  | nil => simp [feed]
  | cons c rest ih =>
    cases rest with
    | nil => simpa [feed] using consume_preserves s c
    | cons c₂ rest₂ =>
      unfold feed
      rcases hc : consume s c with ⟨s₁, r⟩
      have hstep := consume_preserves s c
      rw [hc] at hstep
      cases r with
      | error e =>
        exact ⟨hstep.1, hstep.2.1, hstep.2.2.1, hstep.2.2.2⟩
      | ok v =>
        exact ⟨Nat.le_trans hstep.1 (ih s₁).1,
          fun t h => (ih s₁).2.1 t (hstep.2.1 t h),
          fun h => (ih s₁).2.2.1 (hstep.2.2.1 h),
          fun h => (ih s₁).2.2.2 (hstep.2.2.2 h)⟩

/-- Witness for `C9_parser_state_invariants`: a parser that has locked
`\r\n` and finished both phases keeps all invariants over a further
two-chunk sequence. -/
theorem C9_parser_state_invariants_witness :
    ({ initParser with
        EOL_TOKEN := some [13, 10]
        needs_request_line := false
        needs_headers := false } : ParserState).request_length ≤
      (feed
        { initParser with
            EOL_TOKEN := some [13, 10]
            needs_request_line := false
            needs_headers := false }
        [B ("XYZ"), B ("AB\r\n")]).1.request_length ∧
    (feed
        { initParser with
            EOL_TOKEN := some [13, 10]
            needs_request_line := false
            needs_headers := false }
        [B ("XYZ"), B ("AB\r\n")]).1.EOL_TOKEN = some [13, 10] ∧
    (feed
        { initParser with
            EOL_TOKEN := some [13, 10]
            needs_request_line := false
            needs_headers := false }
        [B ("XYZ"), B ("AB\r\n")]).1.needs_request_line = false ∧
    (feed
        { initParser with
            EOL_TOKEN := some [13, 10]
            needs_request_line := false
            needs_headers := false }
        [B ("XYZ"), B ("AB\r\n")]).1.needs_headers = false := by
  have h := C9_parser_state_invariants
    { initParser with
        EOL_TOKEN := some [13, 10]
        needs_request_line := false
        needs_headers := false }
    [B ("XYZ"), B ("AB\r\n")]
  exact ⟨h.1, h.2.1 [13, 10] rfl, h.2.2.1 rfl, h.2.2.2 rfl⟩

/-- The continuation-line predicate used by the header accumulator: a
non-empty raw line that decodes and begins with a space or a tab. -/
def IsContLine (c : Bytes) (d : Str) : Prop :=
  c ≠ [] ∧ utf8Decode c = some d ∧ (d.head? = some 32 ∨ d.head? = some 9)

/-- Folding loop invariant: with a pending list-valued header, a run of
continuation lines followed by the blank terminator appends each stripped
continuation in order and flushes. -/
theorem store_headers_conts (k : Str) :
    ∀ (cs : List Bytes) (ds : List Str) (s : ParserState) (vs : List Str),
      s.header_buffer = some ⟨k, .list vs⟩ →
      List.Forall₂ IsContLine cs ds →
      store_headers_from_lines s (cs ++ [[]]) =
        ({ s with headers := dictSet k (.list (vs ++ ds.map pyStrip)) s.headers,
                  header_buffer := none,
                  body_buffer := some [] }, .ok ()) := by
  intro cs
  induction cs with
  | nil =>
    intro ds s vs hhb hf
    rcases hf
    unfold store_headers_from_lines flush_header_buffer
    rw [hhb]
    simp
  | cons c cs₂ ih =>
    intro ds s vs hhb hf
    rcases hf with _ | ⟨⟨hne, hdec, hsp⟩, hf₂⟩
    rename_i d ds₂
    show store_headers_from_lines s (c :: (cs₂ ++ [[]])) = _
    unfold store_headers_from_lines
    rw [if_neg hne, hdec]
    simp only [hsp, if_true, hhb]
    rw [ih ds₂ _ (vs ++ [pyStrip d]) rfl hf₂]
    simp [List.append_assoc]

/-- **C7** — header folding: a header line followed by one or more
continuation lines (lines starting with a space or a tab) and the blank
terminator yields, for that header, a list containing the original value
followed by each stripped continuation in order; a continuation line
arriving when no header is pending raises `HTTPErrorInvalidHeader`. -/
theorem C7_header_folding (s : ParserState) (hs : s.header_buffer = none) :
    (∀ (hline : Bytes) (hl : Str) (k v : Str)
        (conts : List Bytes) (dconts : List Str),
      hline ≠ [] → utf8Decode hline = some hl →
      ¬(hl.head? = some 32 ∨ hl.head? = some 9) →
      header_from_line hl = .ok ⟨k, .str v⟩ →
      List.Forall₂ IsContLine conts dconts → conts ≠ [] →
      store_headers_from_lines s (hline :: (conts ++ [[]])) =
        ({ s with headers := dictSet k (.list (v :: dconts.map pyStrip)) s.headers,
                  header_buffer := none,
                  body_buffer := some [] }, .ok ())) ∧
    (∀ (c : Bytes) (d : Str) (rest : List Bytes),
      IsContLine c d →
      store_headers_from_lines s (c :: rest) = (s, .error .invalidHeader)) := by
  constructor
  · intro hline hl k v conts dconts hne hdec hnc hok hf hcne
    rcases hf with _ | ⟨⟨hne₁, hdec₁, hsp₁⟩, hf₂⟩
    · exact absurd rfl hcne
    rename_i c d cs ds
    show store_headers_from_lines s (hline :: (c :: cs ++ [[]])) = _
    unfold store_headers_from_lines
    rw [if_neg hne, hdec]
    simp only [hnc, if_false, hs, hok]
    show store_headers_from_lines
      { s with header_buffer := some ⟨k, .str v⟩ } (c :: (cs ++ [[]])) = _
    unfold store_headers_from_lines
    rw [if_neg hne₁, hdec₁]
    simp only [hsp₁, if_true]
    rw [store_headers_conts k cs ds _ [v, pyStrip d] rfl hf₂]
    simp
  · intro c d rest hcd
    rcases hcd with ⟨hne, hdec, hsp⟩
    unfold store_headers_from_lines
    rw [if_neg hne, hdec]
    simp only [hsp, if_true, hs]

/-- Witness for `C7_header_folding`: Scenario 3 — `"X-Foo: a"`, then
`" b"`, then the blank line yields `X-FOO = ["a", "b"]`; and a lone
continuation line with no pending header is an invalid header. -/
theorem C7_header_folding_witness :
    store_headers_from_lines initParser [B ("X-Foo: a"), B (" b"), []] =
      ({ initParser with
          headers := [(B ("X-FOO"), .list [B ("a"), B ("b")])]
          body_buffer := some [] }, .ok ()) ∧
    store_headers_from_lines initParser [B (" b")] =
      (initParser, .error .invalidHeader) := by
  constructor
  · have h := (C7_header_folding initParser rfl).1
      (B ("X-Foo: a")) (B ("X-Foo: a")) (B ("X-FOO")) (B ("a"))
      [B (" b")] [B (" b")]
      (by decide) (by decide) (by decide) (by decide)
      (List.Forall₂.cons ⟨by decide, by decide, by decide⟩ List.Forall₂.nil)
      (by decide)
    exact h.trans (by decide)
  · exact (C7_header_folding initParser rfl).2 (B (" b")) (B (" b")) []
      ⟨by decide, by decide, by decide⟩

/-- Two characters that are equal or are ASCII case variants of the same
letter ("differ only in letter case"). -/
def asciiCaseEq (a b : Nat) : Prop :=
  a = b ∨ (65 ≤ a ∧ a ≤ 90 ∧ b = a + 32) ∨ (65 ≤ b ∧ b ≤ 90 ∧ a = b + 32)

instance (a b : Nat) : Decidable (asciiCaseEq a b) := by
  unfold asciiCaseEq
  infer_instance

/-- Case variants agree on Python whitespace-ness. -/
theorem asciiCaseEq_isPySpace {a b : Nat} (h : asciiCaseEq a b) :
    isPySpace a = isPySpace b := by
  rcases h with rfl | ⟨h1, h2, rfl⟩ | ⟨h1, h2, rfl⟩
  · rfl
  · have ha : isPySpace a = false := by (simp [isPySpace]; omega)
    have hb : isPySpace (a + 32) = false := by (simp [isPySpace]; omega)
    rw [ha, hb]
  · have ha : isPySpace (b + 32) = false := by (simp [isPySpace]; omega)
    have hb : isPySpace b = false := by (simp [isPySpace]; omega)
    rw [ha, hb]

/-- Case variants are identified by ASCII upper-casing. -/
theorem asciiCaseEq_upper {a b : Nat} (h : asciiCaseEq a b) :
    (if 97 ≤ a ∧ a ≤ 122 then a - 32 else a) =
    (if 97 ≤ b ∧ b ≤ 122 then b - 32 else b) := by
  rcases h with rfl | ⟨h1, h2, rfl⟩ | ⟨h1, h2, rfl⟩ <;> split_ifs <;> omega

/-- `dropWhile isPySpace` preserves pointwise case equivalence. -/
theorem forall₂_dropWhile_pySpace :
    ∀ {l₁ l₂ : Str}, List.Forall₂ asciiCaseEq l₁ l₂ →
      List.Forall₂ asciiCaseEq (l₁.dropWhile isPySpace) (l₂.dropWhile isPySpace) := by
  intro l₁ l₂ h
  induction h with
  | nil => simp
  | @cons a b t₁ t₂ hab ht ih =>
    rw [List.dropWhile_cons, List.dropWhile_cons, ← asciiCaseEq_isPySpace hab]
    by_cases hsp : isPySpace a
    · simp only [hsp, if_true]
      exact ih
    · simp only [hsp, if_false, Bool.false_eq_true]
      exact List.Forall₂.cons hab ht

/-- `pyStrip` preserves pointwise case equivalence. -/
theorem forall₂_pyStrip {n₁ n₂ : Str} (h : List.Forall₂ asciiCaseEq n₁ n₂) :
    List.Forall₂ asciiCaseEq (pyStrip n₁) (pyStrip n₂) := by
  unfold pyStrip
  exact List.rel_reverse
    (forall₂_dropWhile_pySpace (List.rel_reverse (forall₂_dropWhile_pySpace h)))

/-- Names that differ only in letter case have equal `pyUpper` images. -/
theorem pyUpper_eq_of_caseEq :
    ∀ {n₁ n₂ : Str}, List.Forall₂ asciiCaseEq n₁ n₂ → pyUpper n₁ = pyUpper n₂ := by
  intro n₁ n₂ h
  induction h with
  | nil => rfl
  | @cons a b t₁ t₂ hab ht ih =>
    unfold pyUpper at ih ⊢
    rw [List.map_cons, List.map_cons, ih, asciiCaseEq_upper hab]

/-- Python dict semantics: re-assigning the same key overwrites, so the
earlier assignment is invisible. -/
theorem dictSet_dictSet (k : Str) (v₁ v₂ : HdrVal) :
    ∀ (m : List (Str × HdrVal)), dictSet k v₂ (dictSet k v₁ m) = dictSet k v₂ m := by
  intro m
  induction m with
  | nil => simp [dictSet]
  | cons e rest ih =>
    rcases e with ⟨k₃, v₃⟩
    by_cases hk : k₃ = k
    · simp [dictSet, hk]
    · simp [dictSet, hk, ih]

/-- Splitting at the first occurrence of `c` in `n ++ c :: v` when `c` does
not occur in `n`. -/
theorem splitFirst_append (c : Nat) :
    ∀ (n v : Str), c ∉ n → splitFirst c (n ++ c :: v) = some (n, v) := by
  intro n
  induction n with
  | nil => intro v h; simp [splitFirst]
  | cons a t ih =>
    intro v h
    have ha : a ≠ c := by
      intro hac
      subst hac
      exact h (List.mem_cons_self a t)
    rw [List.cons_append]
    unfold splitFirst
    rw [if_neg ha, ih v (fun hm => h (List.mem_cons_of_mem a hm))]
    rfl

/-- `header_from_line` on a line whose name part (before its first colon)
is valid: the key is the upper-cased stripped name, the value the stripped
remainder. -/
theorem header_from_line_append (n v : Str) (hc : 58 ∉ n)
    (hval : is_invalid_header_name (pyStrip n) = false) :
    header_from_line (n ++ 58 :: v) =
      .ok ⟨pyUpper (pyStrip n), .str (pyStrip v)⟩ := by
  unfold header_from_line
  rw [splitFirst_append 58 n v hc]
  simp [hval]

/-- **C8** — header canonicalization: two header lines whose names differ
only in letter case map to the same upper-cased key, and the later
non-folded occurrence overwrites the value stored by the earlier one (last
write wins). -/
theorem C8_header_canonicalization (s : ParserState) (hs : s.header_buffer = none)
    (n₁ n₂ v₁ v₂ : Str) (b₁ b₂ : Bytes)
    (hcase : List.Forall₂ asciiCaseEq n₁ n₂)
    (hb₁ : b₁ ≠ []) (hb₂ : b₂ ≠ [])
    (hdec₁ : utf8Decode b₁ = some (n₁ ++ 58 :: v₁))
    (hdec₂ : utf8Decode b₂ = some (n₂ ++ 58 :: v₂))
    (hnc₁ : ¬((n₁ ++ 58 :: v₁).head? = some 32 ∨ (n₁ ++ 58 :: v₁).head? = some 9))
    (hnc₂ : ¬((n₂ ++ 58 :: v₂).head? = some 32 ∨ (n₂ ++ 58 :: v₂).head? = some 9))
    (hcol₁ : 58 ∉ n₁) (hcol₂ : 58 ∉ n₂)
    (hval₁ : is_invalid_header_name (pyStrip n₁) = false)
    (hval₂ : is_invalid_header_name (pyStrip n₂) = false) :
    pyUpper (pyStrip n₁) = pyUpper (pyStrip n₂) ∧
    store_headers_from_lines s [b₁, b₂, []] =
      ({ s with
          headers := dictSet (pyUpper (pyStrip n₁)) (.str (pyStrip v₂)) s.headers,
          header_buffer := none,
          body_buffer := some [] }, .ok ()) := by
  have hkey : pyUpper (pyStrip n₁) = pyUpper (pyStrip n₂) :=
    pyUpper_eq_of_caseEq (forall₂_pyStrip hcase)
  refine ⟨hkey, ?_⟩
  show store_headers_from_lines s (b₁ :: [b₂, []]) = _
  unfold store_headers_from_lines
  rw [if_neg hb₁, hdec₁]
  simp only [hnc₁, if_false, hs, header_from_line_append n₁ v₁ hcol₁ hval₁]
  show store_headers_from_lines _ (b₂ :: [[]]) = _
  unfold store_headers_from_lines
  rw [if_neg hb₂, hdec₂]
  simp only [hnc₂, if_false, header_from_line_append n₂ v₂ hcol₂ hval₂]
  rw [← hkey]
  show store_headers_from_lines _ [[]] = _
  unfold store_headers_from_lines flush_header_buffer
  simp [dictSet_dictSet]

/-- Witness for `C8_header_canonicalization`: `"x-foo: 1"` then
`"X-FoO: 2"` then the blank line leaves a single entry `X-FOO = "2"`. -/
theorem C8_header_canonicalization_witness :
    pyUpper (pyStrip (B ("x-foo"))) = pyUpper (pyStrip (B ("X-FoO"))) ∧
    store_headers_from_lines initParser [B ("x-foo: 1"), B ("X-FoO: 2"), []] =
      ({ initParser with
          headers := [(B ("X-FOO"), .str (B ("2")))]
          body_buffer := some [] }, .ok ()) := by
  have hforall : List.Forall₂ asciiCaseEq (B ("x-foo")) (B ("X-FoO")) :=
    List.Forall₂.cons (by decide)
      (List.Forall₂.cons (by decide)
        (List.Forall₂.cons (by decide)
          (List.Forall₂.cons (by decide)
            (List.Forall₂.cons (by decide) List.Forall₂.nil))))
  have h := C8_header_canonicalization initParser rfl
    (B ("x-foo")) (B ("X-FoO")) (B (" 1")) (B (" 2"))
    (B ("x-foo: 1")) (B ("X-FoO: 2")) hforall
    (by decide) (by decide) (by decide) (by decide) (by decide) (by decide)
    (by decide) (by decide) (by decide) (by decide)
  exact ⟨h.1, h.2.trans (by decide)⟩

/-! ## Lemmas for the over-8-KiB request line (C5) -/

/-- `find` locates the first `\n` after a `\n`-free block. -/
theorem findAux_lf (r : Bytes) :
    ∀ (l : Bytes) (i : Nat), 10 ∉ l →
      findAux [10] (l ++ 10 :: r) i = some (i + l.length) := by
  intro l
  induction l with
  | nil => intro i h; simp [findAux, List.isPrefixOf]
  | cons a t ih =>
    intro i h
    have ha : a ≠ 10 := by
      intro hc
      exact h (hc ▸ List.mem_cons_self a t)
    rw [List.cons_append]
    unfold findAux
    rw [if_neg (by simp [List.isPrefixOf]; omega)]
    rw [ih (i + 1) (fun hm => h (List.mem_cons_of_mem a hm))]
    congr 1
    simp
    omega

/-- Splitting on `\n` after a `\n`-free block peels off one segment. -/
theorem pySplitOnAux_lf (r : Bytes) :
    ∀ (l acc : Bytes), 10 ∉ l →
      pySplitOnAux [10] (l ++ 10 :: r) 0 acc =
        (acc.reverse ++ l) :: pySplitOnAux [10] r 0 [] := by
  intro l
  induction l with
  | nil =>
    intro acc h
    rw [List.nil_append, List.append_nil]
    conv_lhs => unfold pySplitOnAux
    rw [if_pos (by simp [List.isPrefixOf])]
    norm_num
  | cons a t ih =>
    intro acc h
    have ha : a ≠ 10 := by
      intro hc
      exact h (hc ▸ List.mem_cons_self a t)
    rw [List.cons_append]
    conv_lhs => unfold pySplitOnAux
    rw [if_neg (by simp [List.isPrefixOf]; omega)]
    rw [ih (a :: acc) (fun hm => h (List.mem_cons_of_mem a hm))]
    rw [List.reverse_cons, List.append_assoc, List.singleton_append]

/-- An over-8-KiB request line: `GET /aaa...a HTTP/1.1` with `n` letters
`a` in the path. -/
def bigRequestLine (n : Nat) : Bytes :=
  B ("GET /") ++ (List.replicate n 97 ++ B (" HTTP/1.1"))

/-- Strict UTF-8 decoding is the identity on a run of `a` characters in
front of a self-decoding tail. -/
theorem utf8Decode_rep97 (tail : List Nat)
    (htail : utf8Decode tail = some tail) :
    ∀ n, utf8Decode (List.replicate n 97 ++ tail) =
      some (List.replicate n 97 ++ tail) := by
  intro n
  induction n with
  | zero => simpa using htail
  | succ k ih =>
    rw [List.replicate_succ, List.cons_append]
    show (utf8Decode (List.replicate k 97 ++ tail)).map (97 :: ·) = _
    rw [ih]
    rfl

/-- The over-8-KiB request line is pure ASCII and decodes to itself. -/
theorem utf8Decode_bigLine (n : Nat) :
    utf8Decode (bigRequestLine n) = some (bigRequestLine n) := by
  have hrep := utf8Decode_rep97 (B (" HTTP/1.1")) (by decide) n
  show (((((utf8Decode (List.replicate n 97 ++ B (" HTTP/1.1"))).map
      (47 :: ·)).map (32 :: ·)).map (84 :: ·)).map (69 :: ·)).map (71 :: ·) =
    some (bigRequestLine n)
  rw [hrep]
  rfl

/-- `str.split()` passes over a block of non-whitespace characters,
accumulating it into the current token. -/
theorem wsSplitAux_nonspace :
    ∀ (m s acc : Str), (∀ c ∈ m, isPySpace c = false) →
      wsSplitAux (m ++ s) acc = wsSplitAux s (m.reverse ++ acc) := by
  intro m
  induction m with
  | nil => intro s acc h; simp
  | cons c t ih =>
    intro s acc h
    rw [List.cons_append]
    conv_lhs => unfold wsSplitAux
    rw [if_neg (by rw [h c (List.mem_cons_self c t)]; simp)]
    rw [ih s (c :: acc) (fun x hx => h x (List.mem_cons_of_mem c hx))]
    rw [List.reverse_cons, List.append_assoc, List.singleton_append]

/-- `splitFirst` misses: the character does not occur. -/
theorem splitFirst_not_mem (c : Nat) :
    ∀ (l : Str), c ∉ l → splitFirst c l = none := by
  intro l
  induction l with
  | nil => intro h; rfl
  | cons a t ih =>
    intro h
    have ha : a ≠ c := by
      intro hc
      exact h (by rw [← hc]; exact List.mem_cons_self a t)
    unfold splitFirst
    rw [if_neg ha, ih (fun hm => h (List.mem_cons_of_mem a hm))]
    rfl

/-- `unquote` scans a run of `a` characters (no `%`) into literal tokens. -/
theorem unquoteTokens_replicate (n : Nat) :
    unquoteTokens (List.replicate n 97) = List.replicate n (false, 97) := by
  induction n with
  | zero => rfl
  | succ k ih =>
    rw [List.replicate_succ, List.replicate_succ]
    show (false, 97) :: unquoteTokens (List.replicate k 97) = _
    rw [ih]

/-- Literal tokens group back to themselves. -/
theorem unquoteGroup_replicate (n : Nat) :
    unquoteGroup [] (List.replicate n (false, 97)) = List.replicate n 97 := by
  induction n with
  | zero => rfl
  | succ k ih =>
    rw [List.replicate_succ, List.replicate_succ]
    show 97 :: unquoteGroup [] (List.replicate k (false, 97)) = _
    rw [ih]

/-- `unquote` is the identity on an escape-free request path of any
length. -/
theorem unquote_slash_replicate (n : Nat) :
    unquote (47 :: List.replicate n 97) = 47 :: List.replicate n 97 := by
  unfold unquote
  show unquoteGroup [] ((false, 47) :: unquoteTokens (List.replicate n 97)) = _
  rw [unquoteTokens_replicate]
  show 47 :: unquoteGroup [] (List.replicate n (false, 97)) = _
  rw [unquoteGroup_replicate]

/-- `str.split()` at a space: the accumulated token is emitted. -/
theorem wsSplitAux_space32 (s acc : Str) (hacc : acc.isEmpty = false) :
    wsSplitAux (32 :: s) acc = acc.reverse :: wsSplitAux s [] := by
  conv_lhs => unfold wsSplitAux
  rw [if_pos (by decide)]
  rw [if_neg (by simp [hacc])]

/-- The whitespace split of the over-8-KiB request line has exactly the
three expected tokens. -/
theorem pySplitWs_bigLine (n : Nat) :
    pySplitWs (bigRequestLine n) =
      [B ("GET"), 47 :: List.replicate n 97, B ("HTTP/1.1")] := by
  have hns : ∀ c ∈ (47 :: List.replicate n 97), isPySpace c = false := by
    intro c hc
    rcases List.mem_cons.mp hc with rfl | hm
    · decide
    · rw [List.eq_of_mem_replicate hm]
      decide
  show wsSplitAux
      ([71, 69, 84] ++ (32 :: ((47 :: List.replicate n 97) ++ (32 :: B ("HTTP/1.1")))))
      [] = _
  rw [wsSplitAux_nonspace [71, 69, 84] _ [] (by decide)]
  rw [wsSplitAux_space32 _ _ (by decide)]
  rw [wsSplitAux_nonspace (47 :: List.replicate n 97) _ [] hns]
  rw [wsSplitAux_space32 _ _ (by simp)]
  rw [show wsSplitAux (B ("HTTP/1.1")) [] = [B ("HTTP/1.1")] from by decide]
  simp
  decide

/-- `parse_request_line` accepts the over-8-KiB request line (no length
check exists in it), recording `GET`, the long path and `HTTP/1.1`. -/
theorem parse_request_line_bigLine (s : ParserState) (n : Nat) :
    parse_request_line s (bigRequestLine n) =
      ({ s with
          HTTP_VERSION := some [[49], [49]]
          version := some (B ("HTTP/1.1"))
          method := some (B ("GET"))
          original_url := some (47 :: List.replicate n 97)
          parsed_url := some ⟨47 :: List.replicate n 97, []⟩
          path := some (47 :: List.replicate n 97)
          query := some [] }, .ok ()) := by
  have hmem63 : (63 : Nat) ∉ 47 :: List.replicate n 97 := by
    intro h
    rcases List.mem_cons.mp h with h | h
    · exact absurd h (by decide)
    · exact absurd (List.eq_of_mem_replicate h) (by decide)
  have hurl : urlparse (47 :: List.replicate n 97) =
      ⟨47 :: List.replicate n 97, []⟩ := by
    unfold urlparse
    rw [splitFirst_not_mem 63 _ hmem63]
  unfold parse_request_line
  rw [pySplitWs_bigLine n]
  simp only [hurl, unquote_slash_replicate]
  rw [if_neg (by decide)]
  rw [if_neg (by decide)]
  simp [hurl, unquote_slash_replicate]
  decide

/-- The newline byte does not occur inside the over-8-KiB request line. -/
theorem bigLine_no_lf (n : Nat) : (10 : Nat) ∉ bigRequestLine n := by
  show (10 : Nat) ∉ 71 :: 69 :: 84 :: 32 :: 47 ::
    (List.replicate n 97 ++ B (" HTTP/1.1"))
  intro h
  simp only [List.mem_cons, List.mem_append, List.mem_replicate] at h
  rcases h with h | h | h | h | h | h | h
  · omega
  · omega
  · omega
  · omega
  · omega
  · omega
  · exact absurd h (by decide)

/-- Length of the over-8-KiB request line. -/
theorem bigLine_length (n : Nat) : (bigRequestLine n).length = n + 14 := by
  have h9 : (B (" HTTP/1.1")).length = 9 := by decide
  show (71 :: 69 :: 84 :: 32 :: 47 ::
    (List.replicate n 97 ++ B (" HTTP/1.1"))).length = n + 14
  simp [List.length_append, h9]

/-- `find` locates the terminating newline of the over-8-KiB request
line. -/
theorem bigLine_find (n : Nat) :
    bytesFind (bigRequestLine n ++ [10]) [10] = some (n + 14) := by
  unfold bytesFind
  rw [if_neg (by decide)]
  rw [findAux_lf [] (bigRequestLine n) 0 (bigLine_no_lf n), bigLine_length n]
  simp

/-- The byte before the terminating newline is `'1'` (49), not `'\r'`. -/
theorem bigLine_prev (n : Nat) :
    (bigRequestLine n ++ [10]).get? (n + 14 - 1) = some 49 := by
  show ((71 :: 69 :: 84 :: 32 :: 47 ::
    (List.replicate n 97 ++ B (" HTTP/1.1"))) ++ [10]).get? (n + 14 - 1) = some 49
  rw [show n + 14 - 1 = (n + 8) + 5 from by omega]
  show ((List.replicate n 97 ++ B (" HTTP/1.1")) ++ [10]).get? (n + 8) = some 49
  rw [List.append_assoc]
  rw [List.get?_append_right (by simp)]
  rw [List.length_replicate, show n + 8 - n = 8 from by omega]
  decide

/-- Splitting the terminated over-8-KiB request line yields the line and an
empty trailing element. -/
theorem bigLine_split (n : Nat) :
    pySplitOn [10] (bigRequestLine n ++ [10]) = [bigRequestLine n, []] := by
  show pySplitOnAux [10] (bigRequestLine n ++ 10 :: []) 0 [] = _
  rw [pySplitOnAux_lf [] (bigRequestLine n) [] (bigLine_no_lf n)]
  simp
  rfl

/-- The terminated over-8-KiB request line ends with the EOL token. -/
theorem bigLine_suffix (n : Nat) :
    List.isSuffixOf [10] (bigRequestLine n ++ [10]) = true := by
  simp [List.isSuffixOf, List.reverse_append, List.isPrefixOf]

/-- A single `consume` of an over-8-KiB request line terminated by `\n`
parses it completely: no error of any kind is raised, in particular no
size error. -/
theorem consume_bigLine (n : Nat) (hcap : n + 15 ≤ MAX_REQUEST_LENGTH) :
    consume initParser (bigRequestLine n ++ [10]) =
      ({ initParser with
          EOL_TOKEN := some [10]
          request_length := n + 15
          needs_request_line := false
          HTTP_VERSION := some [[49], [49]]
          version := some (B ("HTTP/1.1"))
          method := some (B ("GET"))
          original_url := some (47 :: List.replicate n 97)
          parsed_url := some ⟨47 :: List.replicate n 97, []⟩
          path := some (47 :: List.replicate n 97)
          query := some [] }, .ok none) := by
  have hdlen : (bigRequestLine n ++ [10]).length = n + 15 := by
    rw [List.length_append, bigLine_length n]
    rfl
  have hsz : ¬ MAX_REQUEST_LENGTH <
      initParser.request_length + (bigRequestLine n ++ [10]).length := by
    rw [hdlen]
    show ¬ MAX_REQUEST_LENGTH < 0 + (n + 15)
    omega
  have hfn : find_newline
      { initParser with
          request_length :=
            initParser.request_length + (bigRequestLine n ++ [10]).length }
      (bigRequestLine n ++ [10]) =
      ({ initParser with
          request_length :=
            initParser.request_length + (bigRequestLine n ++ [10]).length,
          EOL_TOKEN := some [10] }, some (n + 14)) := by
    have h0 : initParser.EOL_TOKEN = none := rfl
    unfold find_newline
    simp only [h0, bigLine_find n]
    rw [if_neg (show ¬ (n + 14 = 0) from by omega)]
    rw [bigLine_prev n]
    rw [if_neg (show ¬ (some 49 = some (13 : Nat)) from by decide)]
    rw [bigLine_find n]
  unfold consume
  simp only [hsz, if_false]
  rw [hfn]
  simp only [show initParser.buffer = ([] : List Bytes) from rfl,
    Option.getD_some, List.nil_append, List.flatten_cons,
    List.flatten_nil, List.append_nil, bigLine_split n, bigLine_suffix n,
    if_true, List.dropLast]
  unfold processLines
  have hnrl : initParser.needs_request_line = true := rfl
  simp only [hnrl, if_true, utf8Decode_bigLine n]
  rw [parse_request_line_bigLine]
  unfold afterRequestLine
  simp only [List.isEmpty_nil, if_true]
  simp [hdlen, show initParser.request_length = 0 from rfl]
/-- **C5** — size limits: on every `consume` call the chunk length is added
to the cumulative `request_length` first, and exceeding the 1 MiB
`MAX_REQUEST_LENGTH` raises a `BadRequest` before any further processing
(the returned state differs from the input state only in
`request_length`), regardless of how the input is split; and no separate
8 KiB request-line limit exists — a request line longer than
`MAX_REQUEST_LINE_LENGTH` whose cumulative total stays within 1 MiB parses
without any error. -/
theorem C5_cumulative_limit_no_line_limit (s : ParserState) (d : Bytes) (n : Nat)
    (hover : MAX_REQUEST_LENGTH < s.request_length + d.length)
    (_hline : MAX_REQUEST_LINE_LENGTH < n + 14)
    (hcap : n + 15 ≤ MAX_REQUEST_LENGTH) :
    consume s d =
      ({ s with request_length := s.request_length + d.length },
        .error .badRequest) ∧
    (bigRequestLine n).length = n + 14 ∧
    (consume initParser (bigRequestLine n ++ [10])).2 = .ok none ∧
    (consume initParser (bigRequestLine n ++ [10])).1.needs_request_line = false ∧
    (consume initParser (bigRequestLine n ++ [10])).1.method = some (B ("GET")) := by
  refine ⟨consume_size_exceeded s d hover, bigLine_length n, ?_, ?_, ?_⟩
  · rw [consume_bigLine n hcap]
  · rw [consume_bigLine n hcap]
  · rw [consume_bigLine n hcap]

/-- Witness for `C5_cumulative_limit_no_line_limit`: a fresh parser fed
1 MiB + 1 zero bytes raises `BadRequest`, while an 8214-byte request line
(8200 letters in its path) parses without error. -/
theorem C5_cumulative_limit_no_line_limit_witness :
    consume initParser (List.replicate 1048577 0) =
      ({ initParser with request_length := 1048577 }, .error .badRequest) ∧
    (bigRequestLine 8200).length = 8200 + 14 ∧
    (consume initParser (bigRequestLine 8200 ++ [10])).2 = .ok none ∧
    (consume initParser
      (bigRequestLine 8200 ++ [10])).1.needs_request_line = false ∧
    (consume initParser (bigRequestLine 8200 ++ [10])).1.method
        = some (B ("GET")) := by
  have h := C5_cumulative_limit_no_line_limit initParser
    (List.replicate 1048577 0) 8200
    (by
      rw [show initParser.request_length = 0 from rfl, List.length_replicate]
      norm_num [MAX_REQUEST_LENGTH])
    (by norm_num [MAX_REQUEST_LINE_LENGTH])
    (by norm_num [MAX_REQUEST_LENGTH])
  refine ⟨h.1.trans ?_, h.2.1, h.2.2.1, h.2.2.2.1, h.2.2.2.2⟩
  rw [show initParser.request_length = 0 from rfl, List.length_replicate]
